import Mathlib

/-!
Verification of the KV-Store repository (Go): a shallow embedding of the
Raft-style consensus module (internal/raft/raft.go), the store
(internal/store/store.go), the WAL (internal/wal/wal.go) and the parts of
the server loop (internal/server/server.go) that the claims mention,
together with theorems settling each claim.

Conventions of the embedding:
- Go `int` is modelled as `Int` (values stay tiny, overflow is irrelevant);
  `-1` sentinels (`CommitIndex`, `lastApplied`, `matchIndex`) are kept as `-1`.
- Go maps (`map[string]string`, `map[string]int`) are modelled as
  association lists read through a first-match lookup; Go map assignment is
  modelled by prepending, so the newest binding wins.
- Mutating methods become pure functions `State → result × State`.
- I/O outcomes (file write errors, fsync errors, vote responses on a
  channel) become explicit parameters, so a method that performs I/O is a
  function of the state and of the observed outcomes.
-/

namespace KVStore

/-- The three Raft states of `raft.go` (constants Follower, Candidate, Leader). -/
inductive RState where
  | Follower
  | Candidate
  | Leader
deriving DecidableEq, Repr

/-- `LogEntry` from raft.go: a term and a text command. -/
structure LogEntry where
  term : Int
  command : String
deriving DecidableEq, Repr

/-- First-match lookup in an association list; models reading a Go map. -/
def lookupA (m : List (String × Int)) (k : String) : Option Int :=
  match m with
  | [] => none
  | (k1, v) :: rest => if k1 = k then some v else lookupA rest k

/-- Prepending insert; models Go map assignment (newest binding wins on lookup). -/
def insertA (m : List (String × Int)) (k : String) (v : Int) : List (String × Int) :=
  (k, v) :: m

/-- The mutable fields of the `Consensus` struct in raft.go.  The
heartbeat channel is not part of the state: sends on it only reset a
timer, which the claims do not mention. -/
structure Consensus where
  state : RState
  currentTerm : Int
  id : String
  peers : List String
  votedFor : String
  log : List LogEntry
  commitIndex : Int
  lastApplied : Int
  paused : Bool
  nextIndex : List (String × Int)
  matchIndex : List (String × Int)
deriving DecidableEq, Repr

/-- `NewConsensus` from raft.go: initial Follower at term 0, empty log,
`CommitIndex = -1`, `lastApplied = -1`, not paused, empty peer maps. -/
def newConsensus (id : String) (peers : List String) : Consensus :=
  { state := RState.Follower
    currentTerm := 0
    id := id
    peers := peers
    votedFor := ""
    log := []
    commitIndex := -1
    lastApplied := -1
    paused := false
    nextIndex := []
    matchIndex := [] }

/-- `HandleRequestVote(term, candidateID)` from raft.go.  Note: the code
does NOT consult `paused`, does not change `State` on an equal-term grant,
and clears `VotedFor` (hence always grants) whenever `term > CurrentTerm`. -/
def handleRequestVote (c : Consensus) (term : Int) (candidateID : String) :
    Bool × Consensus :=
  if term < c.currentTerm then (false, c)
  else
    let c1 := if c.currentTerm < term then
        { c with currentTerm := term, state := RState.Follower, votedFor := "" }
      else c
    if c1.votedFor = "" ∨ c1.votedFor = candidateID then
      (true, { c1 with votedFor := candidateID })
    else (false, c1)

/-- `HandleHeartbeat(term)` from raft.go.  Note: no `paused` check, and
`VotedFor` is NOT cleared. -/
def handleHeartbeat (c : Consensus) (term : Int) : Consensus :=
  if c.currentTerm ≤ term then
    { c with currentTerm := term, state := RState.Follower }
  else c

/-- `HandleAppendEntriesIncremental(term, leaderID, prevLogIndex, entries)`
from raft.go.  Mirrors the Go control flow exactly: paused nodes refuse,
stale terms refuse, otherwise the node adopts the term, becomes Follower
and clears `VotedFor`; empty entries are a pure heartbeat; otherwise the
log is truncated at `insertPoint = max 0 (prevLogIndex+1)` when that point
is within the log, and the entries are appended. -/
def handleAppendEntriesIncremental (c : Consensus) (term : Int)
    (_leaderID : String) (prevLogIndex : Int) (entries : List LogEntry) :
    Bool × Consensus :=
  if c.paused then (false, c)
  else if term < c.currentTerm then (false, c)
  else
    let c1 := { c with currentTerm := term, state := RState.Follower, votedFor := "" }
    if entries = [] then (true, c1)
    else
      let insertPoint : Int := if prevLogIndex + 1 < 0 then 0 else prevLogIndex + 1
      let log1 := if insertPoint ≤ (c1.log.length : Int) then
          c1.log.take insertPoint.toNat
        else c1.log
      (true, { c1 with log := log1 ++ entries })

/-- `Pause` from raft.go. -/
def pauseNode (c : Consensus) : Consensus := { c with paused := true }

/-- `Resume` from raft.go: clear paused, become Follower, clear VotedFor. -/
def resumeNode (c : Consensus) : Consensus :=
  { c with paused := false, state := RState.Follower, votedFor := "" }

/-- `ClearLog` from raft.go: empties the log and sets BOTH CommitIndex and
lastApplied to 0 (not -1). -/
def clearLog (c : Consensus) : Consensus :=
  { c with log := [], commitIndex := 0, lastApplied := 0 }

/-- `AddLogEntry(command)` from raft.go: append at the current term unless paused. -/
def addLogEntry (c : Consensus) (command : String) : Consensus :=
  if c.paused then c
  else { c with log := c.log ++ [{ term := c.currentTerm, command := command }] }

/-- `GetUnappliedEntries` from raft.go: if `lastApplied ≥ len(Log)-1`
return nil; else return `Log[lastApplied+1:]` and set
`lastApplied := len(Log)-1`.  `CommitIndex` is not consulted. -/
def getUnappliedEntries (c : Consensus) : List LogEntry × Consensus :=
  if (c.log.length : Int) - 1 ≤ c.lastApplied then ([], c)
  else
    let start := c.lastApplied + 1
    (c.log.drop start.toNat,
     { c with lastApplied := (c.log.length : Int) - 1 })

/-- The quorum computed in `runCandidate`: `(len(c.Peers)+1)/2 + 1` with Go
integer (floor) division on non-negative values. -/
def quorumGo (numPeers : Nat) : Nat := (numPeers + 1) / 2 + 1

/-- The pre-loop part of `runCandidate` (on an unpaused node): increment
the term and vote for self.  The initial tally of 1 is modelled at the
vote-counting loop. -/
def startElection (c : Consensus) : Consensus :=
  { c with state := RState.Candidate, currentTerm := c.currentTerm + 1,
           votedFor := c.id }

/-- The leader transition inside `runCandidate` once the tally reaches the
quorum: become Leader and initialise `nextIndex[p] = len(Log)`,
`matchIndex[p] = -1` for every peer. -/
def winElection (c : Consensus) : Consensus :=
  { c with state := RState.Leader,
           nextIndex := c.peers.map (fun p => (p, (c.log.length : Int))),
           matchIndex := c.peers.map (fun p => (p, (-1 : Int))) }

/-- The vote-counting loop of `runCandidate`: responses arrive one at a
time; a granted response increments the tally; after every response the
tally is compared with the quorum, and on reaching it the candidate wins.
An exhausted response list is the 500 ms timeout (back to Follower,
result `false`). -/
def voteLoop (q : Nat) (votes : Nat) : List Bool → Bool
  | [] => false
  | granted :: rest =>
      let votes1 := if granted then votes + 1 else votes
      if q ≤ votes1 then true else voteLoop q votes1 rest

/-- Whether `runCandidate` on a node with `numPeers` peers, observing the
given sequence of vote responses, ends the election as Leader.  The tally
starts at 1 (the self-vote). -/
def becomesLeader (numPeers : Nat) (responses : List Bool) : Bool :=
  voteLoop (quorumGo numPeers) 1 responses

/-- Count of granted responses. -/
def countGranted (responses : List Bool) : Nat :=
  (responses.filter (fun b => b)).length

/-- The response handling at the end of each per-peer goroutine of
`broadcastHeartbeat` in raft.go: on SUCCESS set `nextIndex[p] = logLen`
and `matchIndex[p] = logLen - 1`; on CONFLICT decrement `nextIndex[p]`
(floor 0); nothing else changes.  `CommitIndex` is not touched. -/
def handleAppendResponse (c : Consensus) (p : String) (logLen : Nat)
    (response : String) : Consensus :=
  if response = "SUCCESS" then
    { c with nextIndex := insertA c.nextIndex p (logLen : Int),
             matchIndex := insertA c.matchIndex p ((logLen : Int) - 1) }
  else if response = "CONFLICT" then
    match lookupA c.nextIndex p with
    | some n => if 0 < n then { c with nextIndex := insertA c.nextIndex p (n - 1) } else c
    | none => c
  else c

/-! Cluster-level execution.  A cluster state is a list of node states.
Steps are coarse but each is a realizable interleaving of the Go code,
built only from the operations the election-safety claim names: the
candidate election rule of `runCandidate` (with the receivers running the
real `HandleRequestVote`), heartbeat handling, and AppendEntries handling
(one full `broadcastHeartbeat` round trip to one peer). -/

/-- A cluster step.  `elect i voters`: node `i` starts an election
(`runCandidate`), the listed nodes each handle the vote request in order,
and node `i` becomes Leader if the tally reaches the quorum.
`append i j`: leader `i` performs one `broadcastHeartbeat` round trip with
node `j` (the entries sent are determined by `nextIndex`, exactly as in the
code) and handles the response.  `beat i j`: node `j` handles a
`HEARTBEAT` carrying node `i`'s current term. -/
inductive ClusterStep where
  | elect (i : Nat) (voters : List Nat)
  | append (i j : Nat)
  | beat (i j : Nat)

/-- One election performed by node `i`, polling `voters` in order via the
real `handleRequestVote`; the tally starts at 1 (self-vote). -/
def electStep (ns : List Consensus) (i : Nat) (voters : List Nat) :
    List Consensus :=
  match ns.get? i with
  | none => ns
  | some ci =>
    if ci.paused then ns
    else
      let ci1 := startElection ci
      let term := ci1.currentTerm
      let poll := voters.foldl
        (fun (acc : List Consensus × Nat) j =>
          match (acc.1).get? j with
          | none => acc
          | some cj =>
            let r := handleRequestVote cj term ci1.id
            ((acc.1).set j r.2, if r.1 then acc.2 + 1 else acc.2))
        (ns.set i ci1, 1)
      if quorumGo ci1.peers.length ≤ poll.2 then
        match (poll.1).get? i with
        | some ci2 => (poll.1).set i (winElection ci2)
        | none => poll.1
      else poll.1

/-- One `broadcastHeartbeat` round trip from leader `i` to node `j`,
mirroring the per-peer goroutine: compute `nextIdx` (defaulting a missing
entry to `logLen`), send `Log[nextIdx:]` with `prevLogIndex = nextIdx - 1`,
let `j` run the real AppendEntries handler, and fold the SUCCESS/CONFLICT
response back into `i` via `handleAppendResponse`. -/
def appendStep (ns : List Consensus) (i j : Nat) : List Consensus :=
  match ns.get? i, ns.get? j with
  | some ci, some cj =>
    if ci.state = RState.Leader then
      let logLen := ci.log.length
      let nextIdx : Int :=
        match lookupA ci.nextIndex cj.id with
        | some n => n
        | none => (logLen : Int)
      let entriesToSend : List LogEntry :=
        if nextIdx < (logLen : Int) then ci.log.drop nextIdx.toNat else []
      let prevLogIndex := nextIdx - 1
      let r := handleAppendEntriesIncremental cj ci.currentTerm ci.id
        prevLogIndex entriesToSend
      let response := if r.1 then "SUCCESS" else "CONFLICT"
      let ns1 := ns.set j r.2
      match ns1.get? i with
      | some ci1 => ns1.set i (handleAppendResponse ci1 cj.id logLen response)
      | none => ns1
    else ns
  | _, _ => ns

/-- Apply one cluster step. -/
def applyStep (ns : List Consensus) : ClusterStep → List Consensus
  | ClusterStep.elect i voters => electStep ns i voters
  | ClusterStep.append i j => appendStep ns i j
  | ClusterStep.beat i j =>
    match ns.get? i, ns.get? j with
    | some ci, some cj => ns.set j (handleHeartbeat cj ci.currentTerm)
    | _, _ => ns

/-- Run a list of cluster steps from an initial cluster. -/
def execSteps (ns : List Consensus) (steps : List ClusterStep) : List Consensus :=
  steps.foldl applyStep ns

/-- The three-node cluster of the deployment (`main.go` with
`--peers`), each node freshly constructed by `NewConsensus`. -/
def cluster3 : List Consensus :=
  [ newConsensus ":8080" [":8081", ":8082"]
  , newConsensus ":8081" [":8080", ":8082"]
  , newConsensus ":8082" [":8080", ":8081"] ]

/-! The store (internal/store/store.go).  The in-memory Go map is an
association list read through a first-match lookup; the outcome of the
synchronous `wal.WriteEntry` call is an explicit parameter
(`none` = success, `some e` = the WAL error). -/

/-- String-valued association lookup, modelling reads of `s.data`. -/
def lookupS (m : List (String × String)) (k : String) : Option String :=
  match m with
  | [] => none
  | (k1, v) :: rest => if k1 = k then some v else lookupS rest k

/-- `Store.Set(key, value)` from store.go: call `wal.WriteEntry`; on error
return it at once with the map untouched; on success assign
`data[key] = value` and return nil.  Result: (returned error, new map). -/
def storeSet (data : List (String × String)) (walResult : Option String)
    (key value : String) : Option String × List (String × String) :=
  match walResult with
  | some e => (some e, data)
  | none => (none, (key, value) :: data)

/-- `Store.Get(key)` from store.go: look the key up; missing keys give
`ErrorNotFound` (modelled as `Except.error`). -/
def storeGet (data : List (String × String)) (key : String) :
    Except String String :=
  match lookupS data key with
  | some v => Except.ok v
  | none => Except.error "key not found"

/-! The WAL (internal/wal/wal.go). -/

/-- The entry string built by `WriteEntry`: `key,value\n`. -/
def walEntryString (key value : String) : String :=
  key ++ "," ++ value ++ "\x0a"

/-- The sequential write phase of `flush`: write each drained entry in
order, stopping at the first error (`break` in the Go loop).  `writeRes i`
is the outcome of the i-th `file.WriteString` call (`none` = success). -/
def writeLoop (writeRes : Nat → Option String) :
    List String → Nat → Option String
  | [], _ => none
  | _ :: rest, i =>
    match writeRes i with
    | some e => some e
    | none => writeLoop writeRes rest (i + 1)

/-- The shared result computed by `flush` for a drained batch: the first
write error if any; otherwise the outcome of the single `file.Sync`. -/
def flushResult (writeRes : Nat → Option String) (syncRes : Option String)
    (toFlush : List String) : Option String :=
  match writeLoop writeRes toFlush 0 with
  | some e => some e
  | none => syncRes

/-- The notification phase of `flush`: every waiter of the drained batch
receives `writeErr` on its `done` channel.  The i-th element is what the
i-th writer's blocked `WriteEntry` call returns. -/
def flushNotify (writeRes : Nat → Option String) (syncRes : Option String)
    (toFlush : List String) : List (Option String) :=
  toFlush.map (fun _ => flushResult writeRes syncRes toFlush)

/-- Splitting a line at every comma, exactly as Go
`strings.Split(line, ",")`: n commas give n+1 pieces. -/
def splitComma : List Char → List Char → List (List Char)
  | [], acc => [acc.reverse]
  | ch :: rest, acc =>
    if ch = ',' then acc.reverse :: splitComma rest [] else splitComma rest (ch :: acc)

/-- One scanner iteration of `Recover` in wal.go: split the line on
commas; only when that yields exactly two parts (`len(parts) == 2`, i.e.
the line holds exactly one comma) assign `data[parts[0]] = parts[1]`;
otherwise leave the map alone. -/
def recoverStep (m : List (String × String)) (line : String) :
    List (String × String) :=
  match splitComma line.data [] with
  | [k, v] => (String.mk k, String.mk v) :: m
  | _ => m

/-- The scanner loop of `Recover` over the complete lines of the file. -/
def recoverLines (lines : List String) : List (String × String) :=
  lines.foldl recoverStep []

/-- `Recover(filename)` from wal.go, with the file content given as the
list of lines the scanner yields: a missing file (`os.IsNotExist`) returns
an empty map and nil error; otherwise the scanner loop runs. -/
def walRecover (file : Option (List String)) :
    Except String (List (String × String)) :=
  match file with
  | none => Except.ok []
  | some lines => Except.ok (recoverLines lines)

/-- A cluster-wide majority test on `matchIndex`, following the spec's
words for the commit rule (the leader counts implicitly): index `n` is
match-replicated on a majority when the leader plus the peers whose
`matchIndex` is at least `n` form a strict majority of the cluster. -/
def majorityMatch (c : Consensus) (n : Int) : Bool :=
  let cnt := 1 + (c.peers.filter (fun p =>
    match lookupA c.matchIndex p with
    | some m => n ≤ m
    | none => false)).length
  quorumGo c.peers.length ≤ cnt

/-- Modelled from the spec: the commit rule of §4.4, which no code in the
repository implements — "the commit index advances to the highest index N
such that matchIndex on a majority of peers (including the leader itself)
is ≥ N and Log[N].term == CurrentTerm".  Written from the spec's words to
compare against the code's actual `CommitIndex` handling. -/
def specCommitIndex (c : Consensus) : Int :=
  (List.range c.log.length).foldl
    (fun acc n =>
      if majorityMatch c (Int.ofNat n) ∧
          (c.log.get? n).map LogEntry.term = some c.currentTerm then
        Int.ofNat n
      else acc)
    c.commitIndex

/-! Concrete instances used by the claim theorems below. -/

/-- The trace refuting election safety: node 0 wins term 1 with node 1's
vote, heartbeats node 1 (which clears node 1's `VotedFor` at the same
term), then node 2 wins term 1 with node 1's second vote. -/
def doubleLeaderTrace : List ClusterStep :=
  [ClusterStep.elect 0 [1], ClusterStep.append 0 1, ClusterStep.elect 2 [1]]

/-- A leader of term 1 with one log entry of term 1, as produced by the
code: fresh node, term raised to 1, made Leader, one `AddLogEntry`. -/
def leaderOneEntry : Consensus :=
  addLogEntry
    { newConsensus ":8080" [":8081", ":8082"] with
        currentTerm := 1, state := RState.Leader }
    "SET x 1"

/-- `leaderOneEntry` after both peers answered SUCCESS to the entry
broadcast (the `broadcastHeartbeat` response handling ran for each). -/
def leaderAfterAcks : Consensus :=
  handleAppendResponse
    (handleAppendResponse leaderOneEntry ":8081" 1 "SUCCESS")
    ":8082" 1 "SUCCESS"

/-- A fresh follower (term 0, empty log, unpaused). -/
def freshFollower : Consensus := newConsensus ":8081" [":8080", ":8082"]

/-- A log entry used in concrete evaluations. -/
def entry1 : LogEntry := { term := 1, command := "SET x 1" }

/-- A leader at term 5 that has `VotedFor = ":8081"`. -/
def leaderVoted : Consensus :=
  { newConsensus ":8080" [":8081", ":8082"] with
      state := RState.Leader, currentTerm := 5, votedFor := ":8081" }

/-- A follower with one entry at term 1, current term 1. -/
def followerOneEntry : Consensus :=
  { newConsensus ":8081" [":8080", ":8082"] with
      currentTerm := 1,
      log := [entry1] }

/-- A freshly constructed node that the operator paused. -/
def pausedFresh : Consensus :=
  pauseNode (newConsensus ":8080" [":8081", ":8082"])

/-- A fresh node with one log entry added through `AddLogEntry`. -/
def nodeOneEntry : Consensus :=
  addLogEntry (newConsensus ":8080" [":8081", ":8082"]) "SET x 1"

/-! Theorems.  One main theorem per claim, with counterexamples for the
claims the code refutes and witnesses for theorems with hypotheses. -/

/-- Claim C1 (election safety: at most one leader per term across the
cluster).  REFUTED on the code: from the initial three-node cluster,
using only the candidate election rule, RequestVote handling and
AppendEntries handling, a state with two Leaders of the same term 1 is
reachable.  Node 0 wins term 1 with node 1's vote; node 0's empty
AppendEntries at the same term makes node 1 clear `VotedFor`
(`HandleAppendEntriesIncremental` clears it even when `term ==
CurrentTerm`); node 2, still at term 0, then starts its own election of
term 1 and receives node 1's second vote of that term. -/
theorem C1_two_leaders_same_term_reachable :
    ((execSteps cluster3 doubleLeaderTrace).get? 0).map
        (fun c => (c.state, c.currentTerm)) = some (RState.Leader, 1) ∧
    ((execSteps cluster3 doubleLeaderTrace).get? 2).map
        (fun c => (c.state, c.currentTerm)) = some (RState.Leader, 1) := by
  decide

/-- Claim C2 (commit rule: after SUCCESS replies the commit index
advances to the highest majority-replicated index of the current term).
REFUTED on the code: no code in the repository ever advances
`CommitIndex`.  A term-1 leader with one term-1 entry, after both peers
replied SUCCESS (so `matchIndex` is 0 for both and the spec's rule puts
the commit index at 0), still has `CommitIndex = -1`. -/
theorem C2_commit_index_never_advances :
    lookupA leaderAfterAcks.matchIndex ":8081" = some 0 ∧
    lookupA leaderAfterAcks.matchIndex ":8082" = some 0 ∧
    (leaderAfterAcks.log.get? 0).map LogEntry.term =
      some leaderAfterAcks.currentTerm ∧
    specCommitIndex leaderAfterAcks = 0 ∧
    leaderAfterAcks.commitIndex = -1 := by
  decide

/-- Claim C3 (Store.Set atomicity): if the WAL write errors, `Set`
returns exactly that error and the map is untouched (so a later `Get`
sees the old binding); the returned error is always exactly the WAL
outcome, so `Set` fails only when the WAL does; on WAL success the map
binds the key to the value. -/
theorem C3_store_set_atomic (data : List (String × String)) (k v : String) :
    (∀ e, storeSet data (some e) k v = (some e, data)) ∧
    (∀ w, (storeSet data w k v).1 = w) ∧
    storeGet (storeSet data none k v).2 k = Except.ok v := by
  refine ⟨fun e => rfl, fun w => ?_, ?_⟩
  · cases w <;> rfl
  · simp [storeSet, storeGet, lookupS]

/-- Claim C4, counterexample: the claim says a record whose value
contains a comma still contributes its key mapped to everything after the
first comma, so the line `k,a,b` should yield `k ↦ a,b`.  The code splits
on EVERY comma and keeps the line only when there are exactly two parts,
so `k,a,b` is skipped entirely. -/
theorem C4_comma_value_line_skipped :
    recoverLines ["k,a,b"] = [] ∧
    lookupS (recoverLines ["k,a,b"]) "k" = none := by
  decide

/-- Claim C4, amended: `Recover` returns an empty map with no error for a
missing file; a line is kept exactly when splitting on commas yields
exactly two parts (exactly one comma), in which case the first part maps
to the second and other keys are untouched; lines with zero or two or
more commas are skipped; the final (last-occurring) record for a key
defines its value. -/
theorem C4_recover_exact_two_parts :
    walRecover none = Except.ok [] ∧
    (∀ (m : List (String × String)) (line : String) (k v : List Char),
      splitComma line.data [] = [k, v] →
        (lookupS (recoverStep m line) (String.mk k) = some (String.mk v) ∧
         ∀ k1, k1 ≠ String.mk k →
           lookupS (recoverStep m line) k1 = lookupS m k1)) ∧
    (∀ (m : List (String × String)) (line : String),
      (splitComma line.data []).length ≠ 2 → recoverStep m line = m) ∧
    (∀ (lines : List String) (line : String) (k v : List Char),
      splitComma line.data [] = [k, v] →
        lookupS (recoverLines (lines ++ [line])) (String.mk k) =
          some (String.mk v)) := by
  refine ⟨rfl, ?_, ?_, ?_⟩
  · intro m line k v h
    constructor
    · simp [recoverStep, h, lookupS]
    · intro k1 hk1
      simp only [recoverStep, h, lookupS]
      rw [if_neg (fun h2 => hk1 h2.symm)]
  · intro m line h
    simp only [recoverStep]
    rcases hs : splitComma line.data [] with _ | ⟨a, _ | ⟨b, _ | _⟩⟩ <;> simp_all
  · intro lines line k v h
    have hfold : recoverLines (lines ++ [line]) =
        recoverStep (recoverLines lines) line := by
      simp [recoverLines, List.foldl_append]
    rw [hfold]
    simp [recoverStep, h, lookupS]

/-- Witness for C4's amended theorem: two writes to key `x`, the later
one wins on recovery. -/
theorem C4_recover_exact_two_parts_witness :
    lookupS (recoverLines ["x,1", "x,2"]) "x" = some "2" :=
  C4_recover_exact_two_parts.2.2.2 ["x,1"] "x,2" ['x'] ['2'] (by decide)

/-- Claim C5 (group-commit error sharing): every waiter of a drained
batch receives the one shared result of the batch; the shared result is
success exactly when the sequential writes all succeeded AND the single
fsync succeeded, so in a failed batch no writer is acknowledged with
success and all receive the error, and in a successful batch all receive
success. -/
theorem C5_group_commit_shared_result (writeRes : Nat → Option String)
    (syncRes : Option String) (toFlush : List String) :
    (∀ i : Nat, (flushNotify writeRes syncRes toFlush).get? i =
      if i < toFlush.length then some (flushResult writeRes syncRes toFlush)
      else none) ∧
    (flushResult writeRes syncRes toFlush = none ↔
      (writeLoop writeRes toFlush 0 = none ∧ syncRes = none)) ∧
    (flushNotify writeRes syncRes toFlush).length = toFlush.length := by
  refine ⟨?_, ?_, by simp [flushNotify]⟩
  · intro i
    by_cases hi : i < toFlush.length
    · rw [if_pos hi]
      rw [flushNotify, List.get?_map]
      have hne : toFlush.get? i ≠ none := by
        rw [ne_eq, List.get?_eq_none]
        omega
      rcases hx : toFlush.get? i with _ | x
      · exact absurd hx hne
      · simp
    · rw [if_neg hi]
      rw [flushNotify, List.get?_map]
      rw [List.get?_eq_none.mpr (by omega)]
      rfl
  · rw [flushResult]
    rcases hw : writeLoop writeRes toFlush 0 with _ | e
    · simp
    · simp

/-- Claim C6, counterexample: the claim says the handler replies CONFLICT
when the follower's log does not line up at `prevLogIndex`.  A fresh
follower with an EMPTY log, sent `prevLogIndex = 5` (far past its log
end) at an acceptable term, nevertheless replies SUCCESS: the code never
examines the log before accepting. -/
theorem C6_success_without_matching_log :
    freshFollower.log.length = 0 ∧
    freshFollower.currentTerm ≤ 1 ∧
    (handleAppendEntriesIncremental freshFollower 1 ":8080" 5 [entry1]).1
      = true := by
  decide

/-- Claim C6, amended: on an unpaused node the handler replies CONFLICT
exactly when `term < CurrentTerm` (the log is never consulted); otherwise
it adopts the term, becomes Follower, clears `VotedFor` and replies
SUCCESS, leaving the log unchanged when `entries` is empty and otherwise
setting it to the old log truncated to length `prevLogIndex + 1`
(clamped at 0) followed by the incoming entries. -/
theorem C6_conflict_only_on_stale_term (c : Consensus) (term : Int)
    (lid : String) (prev : Int) (entries : List LogEntry)
    (hp : c.paused = false) :
    ((handleAppendEntriesIncremental c term lid prev entries).1 = false ↔
      term < c.currentTerm) ∧
    (c.currentTerm ≤ term →
      ((handleAppendEntriesIncremental c term lid prev entries).1 = true ∧
       (handleAppendEntriesIncremental c term lid prev entries).2.currentTerm
         = term ∧
       (handleAppendEntriesIncremental c term lid prev entries).2.state
         = RState.Follower ∧
       (handleAppendEntriesIncremental c term lid prev entries).2.votedFor
         = "" ∧
       (entries = [] →
         (handleAppendEntriesIncremental c term lid prev entries).2.log
           = c.log) ∧
       (entries ≠ [] →
         (handleAppendEntriesIncremental c term lid prev entries).2.log
           = c.log.take (prev + 1).toNat ++ entries))) := by
  constructor
  · simp only [handleAppendEntriesIncremental, hp]
    by_cases ht : term < c.currentTerm
    · simp [ht]
    · simp only [ht, if_false]
      by_cases he : entries = [] <;> simp [he, ht]
  · intro hterm
    have ht : ¬ term < c.currentTerm := not_lt.mpr hterm
    by_cases he : entries = []
    · simp [handleAppendEntriesIncremental, hp, ht, he]
    · have hmain : handleAppendEntriesIncremental c term lid prev entries =
        (true, { c with currentTerm := term,
                        state := RState.Follower,
                        votedFor := "",
                        log := c.log.take (prev + 1).toNat ++ entries }) := by
        simp only [handleAppendEntriesIncremental, hp, Bool.false_eq_true,
          if_false, ht, he]
        by_cases hneg : prev + 1 < 0
        · have h0 : (prev + 1).toNat = 0 := Int.toNat_of_nonpos (le_of_lt hneg)
          simp [hneg, h0]
        · by_cases hle : prev + 1 ≤ (c.log.length : Int)
          · simp [hneg, hle]
          · have hlen : c.log.length ≤ (prev + 1).toNat := by omega
            simp [hneg, hle, List.take_of_length_le hlen]
      rw [hmain]
      exact ⟨rfl, rfl, rfl, rfl, fun h => absurd h he, fun _ => rfl⟩

/-- Witness for C6's amended theorem at a fresh follower receiving one
entry with `prevLogIndex = -1`. -/
theorem C6_conflict_only_on_stale_term_witness :
    (handleAppendEntriesIncremental freshFollower 1 ":8080" (-1) [entry1]).1
      = true ∧
    (handleAppendEntriesIncremental freshFollower 1 ":8080" (-1) [entry1]).2.log
      = freshFollower.log.take ((-1 : Int) + 1).toNat ++ [entry1] := by
  have h := C6_conflict_only_on_stale_term freshFollower 1 ":8080" (-1)
    [entry1] rfl
  have h2 := h.2 (by decide)
  exact ⟨h2.1, h2.2.2.2.2.2 (by decide)⟩

/-- Claim C7, counterexample: at `leaderVoted` (a Leader at term 5 with
`VotedFor = ":8081"`), the call `(5, ":8081")` is granted but the node
STAYS Leader (the claim says every grant reverts to Follower, including
at an equal term), and the call `(7, ":8082")` is granted even though
`VotedFor` is neither empty nor `":8082"` (a higher term first clears
`VotedFor`, so the claim's vote predicate over the pre-call `VotedFor`
does not hold). -/
theorem C7_grant_without_revert :
    leaderVoted.votedFor = ":8081" ∧
    leaderVoted.currentTerm = 5 ∧
    (handleRequestVote leaderVoted 5 ":8081").1 = true ∧
    (handleRequestVote leaderVoted 5 ":8081").2.state = RState.Leader ∧
    (handleRequestVote leaderVoted 7 ":8082").1 = true := by
  decide

/-- Claim C7, amended: the vote is granted iff `term > CurrentTerm`, or
`term = CurrentTerm` and the pre-call `VotedFor` is empty or equals the
candidate; every grant records `VotedFor := candidateID`; when
`term > CurrentTerm` the node adopts the term, reverts to Follower and
always grants; when `term < CurrentTerm` nothing changes and the vote is
denied; at an equal term the state and term never change (a grant does
NOT revert the node to Follower). -/
theorem C7_vote_predicate_actual (c : Consensus) (term : Int) (cid : String) :
    ((handleRequestVote c term cid).1 = true ↔
      (c.currentTerm < term ∨
        (term = c.currentTerm ∧ (c.votedFor = "" ∨ c.votedFor = cid)))) ∧
    ((handleRequestVote c term cid).1 = true →
      (handleRequestVote c term cid).2.votedFor = cid) ∧
    (c.currentTerm < term →
      ((handleRequestVote c term cid).2.currentTerm = term ∧
       (handleRequestVote c term cid).2.state = RState.Follower ∧
       (handleRequestVote c term cid).1 = true)) ∧
    (term < c.currentTerm → handleRequestVote c term cid = (false, c)) ∧
    (term = c.currentTerm →
      ((handleRequestVote c term cid).2.currentTerm = c.currentTerm ∧
       (handleRequestVote c term cid).2.state = c.state)) := by
  rcases lt_trichotomy term c.currentTerm with hlt | heq | hgt
  · have h1 : handleRequestVote c term cid = (false, c) := by
      simp [handleRequestVote, hlt]
    rw [h1]
    refine ⟨by simp; omega, by simp, fun h => absurd h (by omega),
      fun _ => rfl, fun h => absurd h (by omega)⟩
  · have hnlt : ¬ term < c.currentTerm := by omega
    have hngt : ¬ c.currentTerm < term := by omega
    by_cases hv : c.votedFor = "" ∨ c.votedFor = cid
    · have h1 : handleRequestVote c term cid =
          (true, { c with votedFor := cid }) := by
        simp [handleRequestVote, hnlt, hngt, hv]
      rw [h1]
      refine ⟨by simp [heq, hv], fun _ => rfl, fun h => absurd h hngt,
        fun h => absurd h hnlt, fun _ => ⟨rfl, rfl⟩⟩
    · have h1 : handleRequestVote c term cid = (false, c) := by
        simp only [handleRequestVote, if_neg hnlt, if_neg hngt]
        simp [hv]
      rw [h1]
      refine ⟨by simp [heq, hv], by simp, fun h => absurd h hngt,
        fun h => absurd h hnlt, fun _ => ⟨rfl, rfl⟩⟩
  · have hnlt : ¬ term < c.currentTerm := by omega
    have h1 : handleRequestVote c term cid =
        (true, { c with currentTerm := term,
                        state := RState.Follower,
                        votedFor := cid }) := by
      simp [handleRequestVote, hnlt, hgt]
    rw [h1]
    refine ⟨by simp [hgt], fun _ => rfl, fun _ => ⟨rfl, rfl, rfl⟩,
      fun h => absurd h hnlt, fun h => absurd h (by omega)⟩

/-- Witness for C7's amended theorem at `leaderVoted`, discharging each
of the three conditional branches at terms 7, 3 and 5. -/
theorem C7_vote_predicate_actual_witness :
    (handleRequestVote leaderVoted 7 ":8082").2.currentTerm = 7 ∧
    handleRequestVote leaderVoted 3 ":8082" = (false, leaderVoted) ∧
    (handleRequestVote leaderVoted 5 ":8081").2.state = leaderVoted.state := by
  have h1 := C7_vote_predicate_actual leaderVoted 7 ":8082"
  have h2 := C7_vote_predicate_actual leaderVoted 3 ":8082"
  have h3 := C7_vote_predicate_actual leaderVoted 5 ":8081"
  exact ⟨(h1.2.2.1 (by decide)).1, h2.2.2.2.1 (by decide),
    (h3.2.2.2.2 (by decide)).2⟩

/-- Claim C8, counterexample: a freshly paused node still reacts to
incoming consensus messages.  `HandleRequestVote` never consults
`paused`: the paused node grants the vote, adopts term 1 and records the
candidate; `HandleHeartbeat` likewise changes its state. -/
theorem C8_paused_node_still_votes :
    pausedFresh.paused = true ∧
    pausedFresh.currentTerm = 0 ∧
    (handleRequestVote pausedFresh 1 ":8081").1 = true ∧
    (handleRequestVote pausedFresh 1 ":8081").2.currentTerm = 1 ∧
    (handleRequestVote pausedFresh 1 ":8081").2.votedFor = ":8081" ∧
    handleHeartbeat pausedFresh 5 ≠ pausedFresh := by
  decide

/-- Claim C8, amended: while paused, only AppendEntries handling is
suppressed (it replies CONFLICT and changes nothing); `HandleRequestVote`
and `HandleHeartbeat` behave exactly as on an unpaused node (the node may
grant votes and adopt terms, with the paused flag itself unchanged);
`Resume` clears the paused flag, sets the state to Follower and clears
`VotedFor`. -/
theorem C8_paused_behavior_actual (c : Consensus) (term : Int)
    (cid lid : String) (prev : Int) (entries : List LogEntry)
    (hp : c.paused = true) :
    handleAppendEntriesIncremental c term lid prev entries = (false, c) ∧
    (handleRequestVote c term cid).1 =
      (handleRequestVote { c with paused := false } term cid).1 ∧
    (handleRequestVote c term cid).2 =
      { (handleRequestVote { c with paused := false } term cid).2 with
        paused := true } ∧
    handleHeartbeat c term =
      { handleHeartbeat { c with paused := false } term with paused := true } ∧
    resumeNode c =
      { c with paused := false, state := RState.Follower, votedFor := "" } := by
  obtain ⟨s, t, i, p, v, l, ci, la, pa, ni, mi⟩ := c
  simp only at hp
  subst hp
  refine ⟨by simp [handleAppendEntriesIncremental], ?_, ?_, ?_, rfl⟩
  · simp only [handleRequestVote]
    split_ifs <;> rfl
  · simp only [handleRequestVote]
    split_ifs <;> rfl
  · simp only [handleHeartbeat]
    split_ifs <;> rfl

/-- Witness for C8's amended theorem at the freshly paused node. -/
theorem C8_paused_behavior_actual_witness :
    handleAppendEntriesIncremental pausedFresh 1 ":8080" 0 [] =
      (false, pausedFresh) ∧
    (handleRequestVote pausedFresh 1 ":8081").1 =
      (handleRequestVote { pausedFresh with paused := false } 1 ":8081").1 := by
  have h := C8_paused_behavior_actual pausedFresh 1 ":8081" ":8080" 0 [] rfl
  exact ⟨h.1, h.2.1⟩

/-- Claim C9 (LastApplied ≤ CommitIndex is an invariant).  REFUTED on
the code: the invariant holds initially, but `GetUnappliedEntries`
advances `lastApplied` to `len(Log) - 1` while `CommitIndex` (never
advanced anywhere) stays `-1`; one appended entry then one call breaks
it. -/
theorem C9_last_applied_exceeds_commit :
    nodeOneEntry.lastApplied ≤ nodeOneEntry.commitIndex ∧
    (getUnappliedEntries nodeOneEntry).2.lastApplied = 0 ∧
    (getUnappliedEntries nodeOneEntry).2.commitIndex = -1 ∧
    ¬ ((getUnappliedEntries nodeOneEntry).2.lastApplied ≤
        (getUnappliedEntries nodeOneEntry).2.commitIndex) := by
  decide

/-- Helper: the candidate vote loop ends as Leader exactly when at least
one response arrived and the final tally (initial tally plus granted
responses) reaches the quorum; the running tally is monotone, so the
per-response check is equivalent to a check of the final tally. -/
theorem voteLoop_true_iff (rs : List Bool) : ∀ q v : Nat,
    voteLoop q v rs = true ↔ (rs ≠ [] ∧ q ≤ v + countGranted rs) := by
  induction rs with
  | nil => intro q v; simp [voteLoop]
  | cons g rest ih =>
    intro q v
    cases g
    · have hc : countGranted (false :: rest) = countGranted rest := by
        simp [countGranted]
      simp only [voteLoop, if_false, Bool.false_eq_true]
      by_cases hq : q ≤ v
      · rw [if_pos hq]
        simp only [hc, true_iff]
        exact ⟨List.cons_ne_nil _ _, by omega⟩
      · rw [if_neg hq, ih q v]
        rw [hc]
        constructor
        · exact fun h => ⟨List.cons_ne_nil _ _, h.2⟩
        · intro h
          rcases eq_or_ne rest [] with hrest | hrest
          · subst hrest; simp [countGranted] at h; omega
          · exact ⟨hrest, h.2⟩
    · have hc : countGranted (true :: rest) = 1 + countGranted rest := by
        simp [countGranted]
        omega
      simp only [voteLoop, if_true]
      by_cases hq : q ≤ v + 1
      · rw [if_pos hq]
        simp only [hc, true_iff]
        exact ⟨List.cons_ne_nil _ _, by omega⟩
      · rw [if_neg hq, ih q (v + 1)]
        rw [hc]
        constructor
        · intro h
          exact ⟨List.cons_ne_nil _ _, by omega⟩
        · intro h
          rcases eq_or_ne rest [] with hrest | hrest
          · subst hrest; simp [countGranted] at h; omega
          · exact ⟨hrest, by omega⟩

/-- Claim C10, counterexample: with N = 3 peers (a four-node cluster) and
one granted response, the tally is 2, which reaches ⌈(N+1)/2⌉ = 2, yet
the candidate does not become Leader: the code's quorum is
`(N+1)/2 + 1 = 3`. -/
theorem C10_ceiling_formula_fails :
    becomesLeader 3 [true] = false ∧
    (3 + 2) / 2 ≤ 1 + countGranted [true] := by
  decide

/-- Claim C10, amended: the candidate becomes Leader exactly when at
least one vote response arrives and the tally (self-vote plus granted
responses) reaches `⌊(N+1)/2⌋ + 1`, which is precisely the least strict
majority of the (N+1)-node cluster; with a smaller tally it never becomes
Leader within the election.  (The claim's formula ⌈(N+1)/2⌉ agrees only
for odd cluster sizes.) -/
theorem C10_quorum_is_floor_majority (n : Nat) (rs : List Bool) :
    (becomesLeader n rs = true ↔
      (rs ≠ [] ∧ quorumGo n ≤ 1 + countGranted rs)) ∧
    n + 1 < 2 * quorumGo n ∧
    (∀ k : Nat, n + 1 < 2 * k → quorumGo n ≤ k) := by
  refine ⟨voteLoop_true_iff rs (quorumGo n) 1, ?_, ?_⟩
  · simp only [quorumGo]
    omega
  · intro k hk
    simp only [quorumGo]
    omega

/-- Witness for C10's amended theorem: in the deployed three-node
cluster (N = 2), two granted responses elect the candidate, and 2 is the
least strict majority of 3. -/
theorem C10_quorum_is_floor_majority_witness :
    becomesLeader 2 [true, true] = true ∧ quorumGo 2 ≤ 2 := by
  have h := C10_quorum_is_floor_majority 2 [true, true]
  exact ⟨h.1.mpr ⟨by decide, by decide⟩, h.2.2 2 (by decide)⟩

end KVStore
